import Mathlib

/-!
Verification development for the Job Shop Scheduling CQM builder
(`src/job_shop_scheduler.py`).

The constraint-model builder, the solve/extract logic and the orchestration
entry point are embedded shallowly below.  The Schedule Data Source
(`model_data.JobShopData`, not part of the sources being verified) is
modelled from the specification of its read-only interface.
-/

namespace JSS

/-- A task (operation): runs on exactly one resource and has a fixed
non-negative duration. -/
structure Task where
  resource : Nat
  duration : Nat
deriving DecidableEq

/-- Modelled from the spec: the Schedule Data Source (`JobShopData` in
`model_data.py`, which is outside the verified sources).  It exposes the set
of job identifiers, each job's ordered task sequence, the set of resources, a
lookup from (job, resource) to the task that runs there, and a global upper
bound on the achievable makespan.  The spec leaves the lookup undefined when
no such task exists and states it is used only when the pair is known to
exist, so it is modelled as a total function that is unconstrained on pairs
without a task. -/
structure JobShopData where
  jobs : List Nat
  resources : List Nat
  job_tasks : Nat → List Task
  get_resource_job_tasks : Nat → Nat → Task
  max_makespan : Nat

/-- Whether job `j` has a task on resource `i` in its task sequence. -/
def JobShopData.hasTask (d : JobShopData) (j i : Nat) : Bool :=
  (d.job_tasks j).any fun t => t.resource == i

/-- Decision variables of the CQM model built by `define_variables`:
start times `x j i`, ordering indicators `y j k i`, and the makespan. -/
inductive Var where
  | x (j i : Nat)
  | y (j k i : Nat)
  | makespan
deriving DecidableEq

/-- Structured constraint labels, mirroring the label strings built in the
source: pj, OneJob, disjunction1, disjunction2 and makespan_ctr, each
applied to the job / job-pair and machine indices. -/
inductive Label where
  | pj (job m : Nat)
  | oneJob (j k i : Nat)
  | disjunction1 (j k i : Nat)
  | disjunction2 (j k i : Nat)
  | makespan_ctr (job : Nat)
deriving DecidableEq

/-- Algebraic expressions over the decision variables, as built by the
dimod expression arithmetic in the source. -/
inductive Expr where
  | const (c : Int)
  | var (v : Var)
  | add (a b : Expr)
  | sub (a b : Expr)
  | mul (a b : Expr)
deriving DecidableEq

/-- Evaluate an expression under an assignment of integer values to
variables. -/
def Expr.eval (σ : Var → Int) : Expr → Int
  | .const c => c
  | .var v => σ v
  | .add a b => a.eval σ + b.eval σ
  | .sub a b => a.eval σ - b.eval σ
  | .mul a b => a.eval σ * b.eval σ

/-- The list of variables occurring in an expression. -/
def Expr.vars : Expr → List Var
  | .const _ => []
  | .var v => [v]
  | .add a b => a.vars ++ b.vars
  | .sub a b => a.vars ++ b.vars
  | .mul a b => a.vars ++ b.vars

/-- A labelled constraint `lhs ≥ rhs`, as added with `cqm.add_constraint`. -/
structure Constraint where
  lhs : Expr
  rhs : Int
  label : Label
deriving DecidableEq

/-- An assignment satisfies `c` when its left-hand side evaluates to at
least its right-hand side. -/
def Constraint.sat (σ : Var → Int) (c : Constraint) : Prop :=
  c.lhs.eval σ ≥ c.rhs

instance (σ : Var → Int) (c : Constraint) : Decidable (c.sat σ) := by
  unfold Constraint.sat; infer_instance

/-- Variable declarations recorded by `define_variables`: bounded integers
(dimod `Integer`) and booleans (dimod `Binary`). -/
inductive VarDef where
  | integer (v : Var) (lower_bound upper_bound : Int)
  | binary (v : Var)
deriving DecidableEq

/-- Embedding of `define_variables` (source lines 35-56): one bounded integer makespan
variable, a bounded integer start-time variable `x j i` for every job `j`
and every resource `i`, and a binary `y j k i` for every pair of jobs
`j`, `k` (the diagonal `j = k` included) and every resource `i`. -/
def define_variables (d : JobShopData) : List VarDef :=
  VarDef.integer Var.makespan 0 (d.max_makespan : Int) ::
  ((d.jobs.flatMap fun j => d.resources.map fun i =>
      VarDef.integer (Var.x j i) 0 (d.max_makespan : Int)) ++
   (d.jobs.flatMap fun j => d.jobs.flatMap fun k => d.resources.map fun i =>
      VarDef.binary (Var.y j k i)))

/-- Embedding of `define_objective_function` (source lines 59-62): the objective is the
makespan variable itself. -/
def define_objective_function : Expr := Expr.var Var.makespan

/-- The single precedence constraint added for a consecutive task pair
(`prev_task`, `curr_task`) of `job` (source lines 77-80). -/
def precedenceConstraint (job : Nat) (pc : Task × Task) : Constraint :=
  { lhs := Expr.sub (.var (.x job pc.2.resource)) (.var (.x job pc.1.resource))
    rhs := (pc.1.duration : Int)
    label := .pj job pc.2.resource }

/-- Embedding of `add_precedence_constraints` (source lines 65-80): for every job and
every consecutive pair in its task sequence (Python
`zip(tasks[:-1], tasks[1:])`), one constraint
`x[(job, machine_curr)] - x[(job, machine_prev)] >= prev_task.duration`. -/
def add_precedence_constraints (d : JobShopData) : List Constraint :=
  d.jobs.flatMap fun job =>
    ((d.job_tasks job).dropLast.zip (d.job_tasks job).tail).map
      (precedenceConstraint job)

/-- The quadratic overlap constraint added for pair `(j, k)` on resource `i`
(source lines 98-104). -/
def quadraticConstraint (d : JobShopData) (j k i : Nat) : Constraint :=
  let task_k := d.get_resource_job_tasks k i
  let task_j := d.get_resource_job_tasks j i
  { lhs := Expr.add
      (Expr.add
        (Expr.sub (.var (.x j i)) (.var (.x k i)))
        (Expr.mul (.const ((task_k.duration : Int) - (task_j.duration : Int)))
          (.var (.y j k i))))
      (Expr.mul (Expr.mul (.const 2) (.var (.y j k i)))
        (Expr.sub (.var (.x k i)) (.var (.x j i))))
    rhs := (task_k.duration : Int)
    label := .oneJob j k i }

/-- Embedding of `add_quadratic_overlap_constraint` (source lines 83-104): for every
ordered pair of jobs with `j < k` and every resource, when both looked-up
tasks have strictly positive duration, add the single bilinear constraint
`x_j - x_k + (dur_k - dur_j)*y + 2*y*(x_k - x_j) >= dur_k`. -/
def add_quadratic_overlap_constraint (d : JobShopData) : List Constraint :=
  d.jobs.flatMap fun j =>
    (d.jobs.filter fun k => j < k).flatMap fun k =>
      d.resources.flatMap fun i =>
        if 0 < (d.get_resource_job_tasks k i).duration ∧
            0 < (d.get_resource_job_tasks j i).duration then
          [quadraticConstraint d j k i]
        else []

/-- The first disjunctive constraint for pair `(j, k)` on resource `i`
(source lines 121-123): `x_j - x_k - dur_k + y*V >= 0`. -/
def disjunction1Constraint (d : JobShopData) (V : Int) (j k i : Nat) :
    Constraint :=
  let task_k := d.get_resource_job_tasks k i
  { lhs := Expr.add
      (Expr.sub (Expr.sub (.var (.x j i)) (.var (.x k i)))
        (.const (task_k.duration : Int)))
      (Expr.mul (.var (.y j k i)) (.const V))
    rhs := 0
    label := .disjunction1 j k i }

/-- The second disjunctive constraint for pair `(j, k)` on resource `i`
(source lines 125-128): `x_k - x_j - dur_j + (1 - y)*V >= 0`. -/
def disjunction2Constraint (d : JobShopData) (V : Int) (j k i : Nat) :
    Constraint :=
  let task_j := d.get_resource_job_tasks j i
  { lhs := Expr.add
      (Expr.sub (Expr.sub (.var (.x k i)) (.var (.x j i)))
        (.const (task_j.duration : Int)))
      (Expr.mul (Expr.sub (.const 1) (.var (.y j k i))) (.const V))
    rhs := 0
    label := .disjunction2 j k i }

/-- Embedding of `add_disjunctive_constraints` (source lines 107-128): with
`V = get_max_makespan()`, for every ordered pair of jobs with `j < k` and
every resource, add the two big-M constraints.  There is no duration
check on this path. -/
def add_disjunctive_constraints (d : JobShopData) : List Constraint :=
  d.jobs.flatMap fun j =>
    (d.jobs.filter fun k => j < k).flatMap fun k =>
      d.resources.flatMap fun i =>
        [disjunction1Constraint d (d.max_makespan : Int) j k i,
         disjunction2Constraint d (d.max_makespan : Int) j k i]

/-- The makespan constraint for one job (source lines 141-143):
`makespan - x[(job, last_machine)] >= last_job_task.duration`.  The source
indexes `job_tasks[job][-1]`, which presupposes a nonempty sequence; a job
with no tasks contributes no constraint here and the theorems about this
function assume nonemptiness. -/
def makespanConstraint (job : Nat) (last_job_task : Task) : Constraint :=
  { lhs := Expr.sub (.var .makespan) (.var (.x job last_job_task.resource))
    rhs := (last_job_task.duration : Int)
    label := .makespan_ctr job }

/-- Embedding of `add_makespan_constraint` (source lines 131-143): one makespan
constraint per job, built from the job's last task. -/
def add_makespan_constraint (d : JobShopData) : List Constraint :=
  d.jobs.flatMap fun job =>
    match (d.job_tasks job).getLast? with
    | some last_job_task => [makespanConstraint job last_job_task]
    | none => []

/-- The assembled model: declared variables, constraint list, objective. -/
structure CQM where
  varList : List VarDef
  constraints : List Constraint
  objective : Expr

/-- The model-building phase of `run_shop_scheduler` (source lines 241-250):
variables, precedence constraints, one exclusivity policy selected by
`allow_quadratic_constraints`, the makespan constraints, and the
minimize-makespan objective. -/
def build_model (d : JobShopData) (allow_quadratic_constraints : Bool) :
    CQM :=
  { varList := define_variables d
    constraints :=
      add_precedence_constraints d ++
      (if allow_quadratic_constraints then add_quadratic_overlap_constraint d
       else add_disjunctive_constraints d) ++
      add_makespan_constraint d
    objective := define_objective_function }

/-- Embedding of `run_shop_scheduler` (source lines 213-250), restricted to its model
construction: the quadratic-with-MIP configuration is rejected with a
`ValueError` before any model object is created; otherwise the model is
built.  The subsequent solver invocation and result packaging act on
external services and are modelled separately. -/
def run_shop_scheduler (d : JobShopData) (use_mip_solver : Bool)
    (allow_quadratic_constraints : Bool) : Except String CQM :=
  if allow_quadratic_constraints && use_mip_solver then
    Except.error "Cannot use quadratic constraints with MIP solver"
  else
    Except.ok (build_model d allow_quadratic_constraints)

/-- One candidate returned by a sampler: its assigned values plus dimod's
feasibility flag.  List order is the sampler's ranking (dimod sample sets
are sorted best first), as the spec's backend contract states. -/
structure SampleRecord where
  sample : Var → Int
  is_feasible : Bool

/-- The solver-related state of a `JobShopSchedulingCQM` object
(`__init__`, source lines 19-27): best sample, extracted solution and
completion time.  `completion_time` starts at `0`. -/
structure SolveState where
  best_sample : Var → Int
  solution : List ((Nat × Nat) × Task × Int × Nat)
  completion_time : Int

/-- The state right after `__init__`: empty solution, zero completion
time, and an empty (all-zero) best sample. -/
def initState : SolveState :=
  { best_sample := fun _ => 0, solution := [], completion_time := 0 }

/-- The state update at source lines 167-175 once a best sample has been
selected: record the sample, rebuild `solution` over resources × jobs, and
set `completion_time` to the sample's makespan value. -/
def record_best_sample (d : JobShopData) (st : SolveState)
    (s : SampleRecord) : SolveState :=
  { st with
    best_sample := s.sample
    solution := d.resources.flatMap fun i => d.jobs.map fun j =>
      ((j, i), (d.get_resource_job_tasks j i, s.sample (.x j i),
        (d.get_resource_job_tasks j i).duration))
    completion_time := s.sample .makespan }

/-- Embedding of `call_cqm_solver` (source lines 146-175), taking the external
sampler's ranked sample set as input.  Returns whether `warnings.warn` ran
together with the updated state; `none` models dimod's error when `.first`
is taken on an empty sample set. -/
def call_cqm_solver (d : JobShopData) (st : SolveState)
    (raw_sampleset : List SampleRecord) : Option (Bool × SolveState) :=
  let feasible_sampleset := raw_sampleset.filter fun s => s.is_feasible
  let num_feasible := feasible_sampleset.length
  if 0 < num_feasible then
    match (feasible_sampleset.take (min 10 num_feasible)).head? with
    | some first => some (false, record_best_sample d st first)
    | none => none
  else
    match (raw_sampleset.take 10).head? with
    | some first => some (true, record_best_sample d st first)
    | none => none

/-- Embedding of `call_mip_solver` (source lines 178-197), taking the MIP solver's best
sample as input: it rebuilds `solution` from the `x` variables of the
sample and leaves every other state field — notably `completion_time` —
untouched. -/
def call_mip_solver (d : JobShopData) (st : SolveState)
    (best_sol : List (Var × Int)) : SolveState :=
  { st with
    solution := best_sol.filterMap fun vv =>
      match vv with
      | (Var.x job machine, val) =>
          some ((job, machine),
            (d.get_resource_job_tasks job machine, val,
             (d.get_resource_job_tasks job machine).duration))
      | _ => none }

/-! ### Concrete instances used as witnesses and counterexamples -/

/-- Task lookup used by the concrete instances: the first task of the list
on the given resource, defaulting to a zero-duration task. -/
def lookupTask (tasks : List Task) (i : Nat) : Task :=
  (tasks.find? fun t => t.resource == i).getD { resource := i, duration := 0 }

/-- The spec's concrete scenario: job 0 = [(R0, 3), (R1, 2)],
job 1 = [(R1, 4), (R0, 1)]. -/
def exampleTasks : Nat → List Task
  | 0 => [{ resource := 0, duration := 3 }, { resource := 1, duration := 2 }]
  | 1 => [{ resource := 1, duration := 4 }, { resource := 0, duration := 1 }]
  | _ => []

/-- The spec's two-job two-resource instance as a data source. -/
def exampleData : JobShopData :=
  { jobs := [0, 1], resources := [0, 1], job_tasks := exampleTasks,
    get_resource_job_tasks := fun j i => lookupTask (exampleTasks j) i,
    max_makespan := 10 }

/-- An instance in which jobs 0 and 1 share resource 0 and job 0's task
there has zero duration. -/
def zeroDurTasks : Nat → List Task
  | 0 => [{ resource := 0, duration := 0 }]
  | 1 => [{ resource := 0, duration := 5 }]
  | _ => []

/-- Data source for the zero-duration instance. -/
def zeroDurData : JobShopData :=
  { jobs := [0, 1], resources := [0], job_tasks := zeroDurTasks,
    get_resource_job_tasks := fun j i => lookupTask (zeroDurTasks j) i,
    max_makespan := 5 }

/-- An instance in which job 0 only has a task on resource 0 and job 1
only on resource 1, so the pair (job 0, resource 1) has no task. -/
def sparseTasks : Nat → List Task
  | 0 => [{ resource := 0, duration := 2 }]
  | 1 => [{ resource := 1, duration := 3 }]
  | _ => []

/-- Data source for the sparse instance. -/
def sparseData : JobShopData :=
  { jobs := [0, 1], resources := [0, 1], job_tasks := sparseTasks,
    get_resource_job_tasks := fun j i => lookupTask (sparseTasks j) i,
    max_makespan := 5 }

/-! ### Label predicates -/

/-- Matches the two disjunctive labels of pair `(j, k)` on resource `i`. -/
def isDisjLabel (j k i : Nat) (c : Constraint) : Bool :=
  decide (c.label = Label.disjunction1 j k i ∨
          c.label = Label.disjunction2 j k i)

/-- Matches the bilinear-overlap label of pair `(j, k)` on resource `i`. -/
def isOneJobLabel (j k i : Nat) (c : Constraint) : Bool :=
  decide (c.label = Label.oneJob j k i)

/-- Matches any precedence label of the given job. -/
def isPrecLabelOf (job : Nat) (c : Constraint) : Bool :=
  match c.label with
  | Label.pj j _ => j == job
  | _ => false

/-- Matches the makespan-constraint label of the given job. -/
def isMakespanCtrLabel (job : Nat) (c : Constraint) : Bool :=
  decide (c.label = Label.makespan_ctr job)

/-- Matches variable definitions that declare the makespan variable. -/
def isMakespanVarDef (v : VarDef) : Bool :=
  match v with
  | .integer Var.makespan _ _ => true
  | .binary Var.makespan => true
  | _ => false

/-! ### Generic list lemmas -/

/-- A filter over a flat map vanishes when it vanishes on every block. -/
theorem filter_flatMap_nil {α β : Type} (p : β → Bool) (f : α → List β) :
    ∀ xs : List α, (∀ a ∈ xs, (f a).filter p = []) →
      (xs.flatMap f).filter p = []
  | [], _ => rfl
  | a :: xs, h => by
    rw [List.flatMap_cons, List.filter_append,
      h a (List.mem_cons_self a xs),
      filter_flatMap_nil p f xs fun b hb => h b (List.mem_cons_of_mem a hb)]
    rfl

/-- When the filter keeps something only inside the block of a single
element `a₀` of a duplicate-free list, filtering the flat map gives
exactly the filtered block of `a₀`. -/
theorem filter_flatMap_single {α β : Type} (p : β → Bool) (f : α → List β)
    (a₀ : α) (r : List β) :
    ∀ xs : List α, xs.Nodup → a₀ ∈ xs →
      (∀ a ∈ xs, a ≠ a₀ → (f a).filter p = []) →
      (f a₀).filter p = r → (xs.flatMap f).filter p = r := by
  intro xs
  induction xs with
  | nil => intro _ h; exact absurd h (List.not_mem_nil a₀)
  | cons a xs ih =>
    intro hnd hmem hoth hself
    rw [List.flatMap_cons, List.filter_append]
    rcases List.mem_cons.mp hmem with rfl | hmem'
    · rw [hself, filter_flatMap_nil p f xs fun b hb =>
        hoth b (List.mem_cons_of_mem _ hb) fun hba =>
          (List.nodup_cons.mp hnd).1 (hba ▸ hb),
        List.append_nil]
    · have ha : a ≠ a₀ := fun h => (List.nodup_cons.mp hnd).1 (h ▸ hmem')
      rw [hoth a (List.mem_cons_self a xs) ha, List.nil_append]
      exact ih (List.nodup_cons.mp hnd).2 hmem'
        (fun b hb => hoth b (List.mem_cons_of_mem a hb)) hself

/-- Changing the assignment only on variables outside an expression leaves
its value unchanged. -/
theorem eval_congr_of_vars (σ σ' : Var → Int) :
    ∀ e : Expr, (∀ v ∈ e.vars, σ' v = σ v) → e.eval σ' = e.eval σ := by
  intro e
  induction e with
  | const c => intro _; rfl
  | var v => intro h; exact h v (List.mem_singleton_self v)
  | add a b iha ihb =>
    intro h
    have := iha fun v hv => h v (List.mem_append_left _ hv)
    have := ihb fun v hv => h v (List.mem_append_right _ hv)
    simp [Expr.eval, *]
  | sub a b iha ihb =>
    intro h
    have := iha fun v hv => h v (List.mem_append_left _ hv)
    have := ihb fun v hv => h v (List.mem_append_right _ hv)
    simp [Expr.eval, *]
  | mul a b iha ihb =>
    intro h
    have := iha fun v hv => h v (List.mem_append_left _ hv)
    have := ihb fun v hv => h v (List.mem_append_right _ hv)
    simp [Expr.eval, *]

/-! ### Filter characterizations of the four constraint families -/

/-- A disjunctive block of a pair other than `(j, k, i)` contains no
constraint labelled for `(j, k, i)`. -/
theorem filter_disj_block_ne (d : JobShopData) (V : Int) {j k i a b c : Nat}
    (h : ¬(a = j ∧ b = k ∧ c = i)) :
    ([disjunction1Constraint d V a b c,
      disjunction2Constraint d V a b c]).filter (isDisjLabel j k i) = [] := by
  have e1 : isDisjLabel j k i (disjunction1Constraint d V a b c) = false := by
    show decide (Label.disjunction1 a b c = Label.disjunction1 j k i ∨
      Label.disjunction1 a b c = Label.disjunction2 j k i) = false
    rw [decide_eq_false_iff_not]
    rintro (heq | heq)
    · injection heq with h1 h2 h3; exact h ⟨h1, h2, h3⟩
    · exact Label.noConfusion heq
  have e2 : isDisjLabel j k i (disjunction2Constraint d V a b c) = false := by
    show decide (Label.disjunction2 a b c = Label.disjunction1 j k i ∨
      Label.disjunction2 a b c = Label.disjunction2 j k i) = false
    rw [decide_eq_false_iff_not]
    rintro (heq | heq)
    · exact Label.noConfusion heq
    · injection heq with h1 h2 h3; exact h ⟨h1, h2, h3⟩
  simp [List.filter_cons, e1, e2]

/-- Among all constraints added by the disjunctive policy, those labelled
for pair `(j, k)` on resource `i` are exactly its two big-M constraints. -/
theorem disj_filter_pair (d : JobShopData) (hjn : d.jobs.Nodup)
    (hrn : d.resources.Nodup) (j k i : Nat) (hj : j ∈ d.jobs)
    (hk : k ∈ d.jobs) (hjk : j < k) (hi : i ∈ d.resources) :
    (add_disjunctive_constraints d).filter (isDisjLabel j k i) =
      [disjunction1Constraint d (d.max_makespan : Int) j k i,
       disjunction2Constraint d (d.max_makespan : Int) j k i] := by
  unfold add_disjunctive_constraints
  apply filter_flatMap_single _ _ j _ _ hjn hj
  · intro a _ hane
    apply filter_flatMap_nil
    intro b _
    apply filter_flatMap_nil
    intro c _
    exact filter_disj_block_ne d _ fun hcon => hane hcon.1
  · apply filter_flatMap_single _ _ k _ _ (hjn.filter _)
      (List.mem_filter.mpr ⟨hk, by simpa using hjk⟩)
    · intro b _ hbne
      apply filter_flatMap_nil
      intro c _
      exact filter_disj_block_ne d _ fun hcon => hbne hcon.2.1
    · apply filter_flatMap_single _ _ i _ _ hrn hi
      · intro c _ hcne
        exact filter_disj_block_ne d _ fun hcon => hcne hcon.2.2
      · have e1 : isDisjLabel j k i
            (disjunction1Constraint d (d.max_makespan : Int) j k i) = true := by
          show decide (Label.disjunction1 j k i = Label.disjunction1 j k i ∨
            Label.disjunction1 j k i = Label.disjunction2 j k i) = true
          simp
        have e2 : isDisjLabel j k i
            (disjunction2Constraint d (d.max_makespan : Int) j k i) = true := by
          show decide (Label.disjunction2 j k i = Label.disjunction1 j k i ∨
            Label.disjunction2 j k i = Label.disjunction2 j k i) = true
          simp
        simp [List.filter_cons, e1, e2]

/-- A bilinear block of a pair other than `(j, k, i)` contains no
constraint labelled for `(j, k, i)`. -/
theorem filter_quad_block_ne (d : JobShopData) {j k i a b c : Nat}
    (h : ¬(a = j ∧ b = k ∧ c = i)) :
    ((if 0 < (d.get_resource_job_tasks b c).duration ∧
          0 < (d.get_resource_job_tasks a c).duration then
        [quadraticConstraint d a b c]
      else []).filter (isOneJobLabel j k i)) = [] := by
  have e1 : isOneJobLabel j k i (quadraticConstraint d a b c) = false := by
    show decide (Label.oneJob a b c = Label.oneJob j k i) = false
    rw [decide_eq_false_iff_not]
    intro heq
    injection heq with h1 h2 h3
    exact h ⟨h1, h2, h3⟩
  split
  · simp [List.filter_cons, e1]
  · rfl

/-- Among all constraints added by the bilinear policy, those labelled for
pair `(j, k)` on resource `i` are exactly the one overlap constraint when
both looked-up durations are positive, and nothing otherwise. -/
theorem quad_filter_pair (d : JobShopData) (hjn : d.jobs.Nodup)
    (hrn : d.resources.Nodup) (j k i : Nat) (hj : j ∈ d.jobs)
    (hk : k ∈ d.jobs) (hjk : j < k) (hi : i ∈ d.resources) :
    (add_quadratic_overlap_constraint d).filter (isOneJobLabel j k i) =
      (if 0 < (d.get_resource_job_tasks k i).duration ∧
           0 < (d.get_resource_job_tasks j i).duration then
         [quadraticConstraint d j k i]
       else []) := by
  unfold add_quadratic_overlap_constraint
  apply filter_flatMap_single _ _ j _ _ hjn hj
  · intro a _ hane
    apply filter_flatMap_nil
    intro b _
    apply filter_flatMap_nil
    intro c _
    exact filter_quad_block_ne d fun hcon => hane hcon.1
  · apply filter_flatMap_single _ _ k _ _ (hjn.filter _)
      (List.mem_filter.mpr ⟨hk, by simpa using hjk⟩)
    · intro b _ hbne
      apply filter_flatMap_nil
      intro c _
      exact filter_quad_block_ne d fun hcon => hbne hcon.2.1
    · apply filter_flatMap_single _ _ i _ _ hrn hi
      · intro c _ hcne
        exact filter_quad_block_ne d fun hcon => hcne hcon.2.2
      · have e1 : isOneJobLabel j k i (quadraticConstraint d j k i) = true := by
          show decide (Label.oneJob j k i = Label.oneJob j k i) = true
          simp
        show (if 0 < (d.get_resource_job_tasks k i).duration ∧
                 0 < (d.get_resource_job_tasks j i).duration then
                [quadraticConstraint d j k i]
              else []).filter (isOneJobLabel j k i) =
            (if 0 < (d.get_resource_job_tasks k i).duration ∧
                 0 < (d.get_resource_job_tasks j i).duration then
               [quadraticConstraint d j k i]
             else [])
        split
        · simp [List.filter_cons, e1]
        · rfl

/-- Among all precedence constraints, those labelled for `job` are exactly
the ones built from `job`'s consecutive task pairs. -/
theorem prec_filter_job (d : JobShopData) (hjn : d.jobs.Nodup) (job : Nat)
    (hjob : job ∈ d.jobs) :
    (add_precedence_constraints d).filter (isPrecLabelOf job) =
      ((d.job_tasks job).dropLast.zip (d.job_tasks job).tail).map
        (precedenceConstraint job) := by
  unfold add_precedence_constraints
  apply filter_flatMap_single _ _ job _ _ hjn hjob
  · intro a _ hane
    rw [List.filter_eq_nil_iff]
    intro ct hct
    rcases List.mem_map.mp hct with ⟨pc, _, rfl⟩
    show ¬((a == job) = true)
    simp only [beq_iff_eq]
    exact hane
  · rw [List.filter_eq_self]
    intro ct hct
    rcases List.mem_map.mp hct with ⟨pc, _, rfl⟩
    show (job == job) = true
    simp

/-- Among all makespan constraints, the one labelled for `job` is exactly
the constraint built from `job`'s last task. -/
theorem makespan_filter_job (d : JobShopData) (hjn : d.jobs.Nodup)
    (job : Nat) (hjob : job ∈ d.jobs) (tl : Task)
    (hlast : (d.job_tasks job).getLast? = some tl) :
    (add_makespan_constraint d).filter (isMakespanCtrLabel job) =
      [makespanConstraint job tl] := by
  unfold add_makespan_constraint
  apply filter_flatMap_single _ _ job _ _ hjn hjob
  · intro a _ hane
    cases hgl : (d.job_tasks a).getLast? with
    | none => rfl
    | some t =>
      have e1 : isMakespanCtrLabel job (makespanConstraint a t) = false := by
        show decide (Label.makespan_ctr a = Label.makespan_ctr job) = false
        rw [decide_eq_false_iff_not]
        intro heq
        injection heq with h1
        exact hane h1
      simp [List.filter_cons, e1]
  · rw [hlast]
    have e1 : isMakespanCtrLabel job (makespanConstraint job tl) = true := by
      show decide (Label.makespan_ctr job = Label.makespan_ctr job) = true
      simp
    simp [List.filter_cons, e1]

/-! ### Claims -/

/-- C1: Under the disjunctive policy, for every unordered pair of distinct
jobs `(j, k)` with `j < k` and every resource `i` they share, the builder
adds exactly two linear constraints,
`start(j,i) − start(k,i) − duration(k,i) + y[j,k,i]·V ≥ 0` and
`start(k,i) − start(j,i) − duration(j,i) + (1 − y[j,k,i])·V ≥ 0`, where `V`
is the data source's global upper bound on makespan. -/
theorem disjunctive_constraints_per_pair (d : JobShopData)
    (hjn : d.jobs.Nodup) (hrn : d.resources.Nodup) (j k i : Nat)
    (hj : j ∈ d.jobs) (hk : k ∈ d.jobs) (hjk : j < k) (hi : i ∈ d.resources)
    (hsj : d.hasTask j i = true) (hsk : d.hasTask k i = true) :
    (add_disjunctive_constraints d).filter (isDisjLabel j k i) =
      [disjunction1Constraint d (d.max_makespan : Int) j k i,
       disjunction2Constraint d (d.max_makespan : Int) j k i] ∧
    (∀ σ : Var → Int,
      ((disjunction1Constraint d (d.max_makespan : Int) j k i).sat σ ↔
        σ (.x j i) - σ (.x k i)
          - ((d.get_resource_job_tasks k i).duration : Int)
          + σ (.y j k i) * (d.max_makespan : Int) ≥ 0) ∧
      ((disjunction2Constraint d (d.max_makespan : Int) j k i).sat σ ↔
        σ (.x k i) - σ (.x j i)
          - ((d.get_resource_job_tasks j i).duration : Int)
          + (1 - σ (.y j k i)) * (d.max_makespan : Int) ≥ 0)) := by
  refine ⟨disj_filter_pair d hjn hrn j k i hj hk hjk hi, ?_⟩
  intro σ
  exact ⟨Iff.rfl, Iff.rfl⟩

/-- Witness for C1: the filter equality at the spec's concrete two-job
instance, pair `(0, 1)` on resource `0`. -/
theorem disjunctive_constraints_per_pair_witness :
    (add_disjunctive_constraints exampleData).filter (isDisjLabel 0 1 0) =
      [disjunction1Constraint exampleData (exampleData.max_makespan : Int) 0 1 0,
       disjunction2Constraint exampleData (exampleData.max_makespan : Int) 0 1 0] :=
  (disjunctive_constraints_per_pair exampleData (by decide) (by decide) 0 1 0
    (by decide) (by decide) (by decide) (by decide) (by decide) (by decide)).1

/-- C2: Under the bilinear policy, for every unordered pair of distinct
jobs `(j, k)` with `j < k` and every resource `i`, the builder adds the
single quadratic constraint
`start(j,i) − start(k,i) + (duration(k,i) − duration(j,i))·y[j,k,i] +
2·y[j,k,i]·(start(k,i) − start(j,i)) ≥ duration(k,i)`, and adds it only
when both paired tasks have strictly positive duration (the pair is
skipped otherwise). -/
theorem quadratic_overlap_per_pair (d : JobShopData)
    (hjn : d.jobs.Nodup) (hrn : d.resources.Nodup) (j k i : Nat)
    (hj : j ∈ d.jobs) (hk : k ∈ d.jobs) (hjk : j < k)
    (hi : i ∈ d.resources) :
    ((0 < (d.get_resource_job_tasks k i).duration ∧
        0 < (d.get_resource_job_tasks j i).duration →
      (add_quadratic_overlap_constraint d).filter (isOneJobLabel j k i) =
        [quadraticConstraint d j k i] ∧
      ∀ σ : Var → Int,
        (quadraticConstraint d j k i).sat σ ↔
          σ (.x j i) - σ (.x k i)
            + (((d.get_resource_job_tasks k i).duration : Int)
                - ((d.get_resource_job_tasks j i).duration : Int)) * σ (.y j k i)
            + 2 * σ (.y j k i) * (σ (.x k i) - σ (.x j i))
            ≥ ((d.get_resource_job_tasks k i).duration : Int)) ∧
     (¬(0 < (d.get_resource_job_tasks k i).duration ∧
         0 < (d.get_resource_job_tasks j i).duration) →
      (add_quadratic_overlap_constraint d).filter (isOneJobLabel j k i)
        = [])) := by
  constructor
  · intro hpos
    refine ⟨(quad_filter_pair d hjn hrn j k i hj hk hjk hi).trans
      (if_pos hpos), ?_⟩
    intro σ
    exact Iff.rfl
  · intro hneg
    exact (quad_filter_pair d hjn hrn j k i hj hk hjk hi).trans (if_neg hneg)

/-- Witness for C2: the filter equality at the spec's concrete two-job
instance, pair `(0, 1)` on resource `0`, where both durations are
positive. -/
theorem quadratic_overlap_per_pair_witness :
    (add_quadratic_overlap_constraint exampleData).filter (isOneJobLabel 0 1 0)
      = [quadraticConstraint exampleData 0 1 0] :=
  ((quadratic_overlap_per_pair exampleData (by decide) (by decide) 0 1 0
    (by decide) (by decide) (by decide) (by decide)).1 (by decide)).1

/-- C3: For every job and every pair of consecutive tasks (prev, curr) in
that job's ordered sequence, the builder adds exactly one precedence
constraint `start(curr) − start(prev) ≥ duration(prev)` (one constraint
per (job, non-first task)); consequently a job whose sequence has a single
task contributes zero precedence constraints. -/
theorem precedence_constraints_per_job (d : JobShopData)
    (hjn : d.jobs.Nodup) (job : Nat) (hjob : job ∈ d.jobs) :
    (add_precedence_constraints d).filter (isPrecLabelOf job) =
      ((d.job_tasks job).dropLast.zip (d.job_tasks job).tail).map
        (precedenceConstraint job) ∧
    ((add_precedence_constraints d).filter (isPrecLabelOf job)).length =
      (d.job_tasks job).length - 1 ∧
    (∀ pc : Task × Task, ∀ σ : Var → Int,
      (precedenceConstraint job pc).sat σ ↔
        σ (.x job pc.2.resource) - σ (.x job pc.1.resource)
          ≥ (pc.1.duration : Int)) ∧
    ((d.job_tasks job).length = 1 →
      (add_precedence_constraints d).filter (isPrecLabelOf job) = []) := by
  have hfilter := prec_filter_job d hjn job hjob
  have hlen : ((add_precedence_constraints d).filter (isPrecLabelOf job)).length
      = (d.job_tasks job).length - 1 := by
    rw [hfilter, List.length_map, List.length_zip, List.length_dropLast,
      List.length_tail]
    omega
  refine ⟨hfilter, hlen, fun pc σ => Iff.rfl, fun hone => ?_⟩
  have : ((add_precedence_constraints d).filter (isPrecLabelOf job)).length = 0 := by
    rw [hlen, hone]
  exact List.eq_nil_of_length_eq_zero this

/-- Witness for C3: at the spec's concrete instance, job 0 contributes
exactly its one consecutive-pair constraint. -/
theorem precedence_constraints_per_job_witness :
    (add_precedence_constraints exampleData).filter (isPrecLabelOf 0) =
      ((exampleData.job_tasks 0).dropLast.zip
        (exampleData.job_tasks 0).tail).map (precedenceConstraint 0) :=
  (precedence_constraints_per_job exampleData (by decide) 0 (by decide)).1

/-- C4: For every job, the builder adds the makespan constraint
`makespan − start(last task's resource) ≥ duration(last task)`, using that
job's last task in sequence order, and the model's objective is exactly to
minimize the makespan variable with no other terms. -/
theorem makespan_constraint_and_objective (d : JobShopData)
    (hjn : d.jobs.Nodup) (job : Nat) (hjob : job ∈ d.jobs) (tl : Task)
    (hlast : (d.job_tasks job).getLast? = some tl) :
    (add_makespan_constraint d).filter (isMakespanCtrLabel job) =
      [makespanConstraint job tl] ∧
    (∀ σ : Var → Int,
      (makespanConstraint job tl).sat σ ↔
        σ Var.makespan - σ (Var.x job tl.resource) ≥ (tl.duration : Int)) ∧
    define_objective_function = Expr.var Var.makespan ∧
    (∀ σ : Var → Int, define_objective_function.eval σ = σ Var.makespan) := by
  exact ⟨makespan_filter_job d hjn job hjob tl hlast,
    fun σ => Iff.rfl, rfl, fun σ => rfl⟩

/-- Witness for C4: at the spec's concrete instance, job 0's makespan
constraint is built from its last task (resource 1, duration 2). -/
theorem makespan_constraint_and_objective_witness :
    (add_makespan_constraint exampleData).filter (isMakespanCtrLabel 0) =
      [makespanConstraint 0 { resource := 1, duration := 2 }] :=
  (makespan_constraint_and_objective exampleData (by decide) 0 (by decide)
    { resource := 1, duration := 2 } (by decide)).1

/-- Counterexample to C5 as stated: at `sparseData` the pair
(job 0, resource 1) has no task, yet its start-time variable is created
anyway, and the diagonal indicator `y[0,0,0]` is created even though the
claim admits indicators only for distinct job pairs with tasks on the
resource. -/
theorem define_variables_claim_counterexample :
    VarDef.integer (Var.x 0 1) 0 (sparseData.max_makespan : Int)
        ∈ define_variables sparseData ∧
    sparseData.hasTask 0 1 = false ∧
    VarDef.binary (Var.y 0 0 0) ∈ define_variables sparseData := by decide

/-- C5 amended: the variable-definition step creates a bounded integer
start-time variable with domain [0, max makespan] for every
(job, resource) pair, whether or not that pair has a task; creates a
boolean indicator `y[j,k,i]` for every ordered pair of jobs including the
diagonal `j = k`, regardless of tasks; and creates exactly one integer
makespan variable with domain [0, max makespan], where max makespan is the
data source's computed upper bound. -/
theorem define_variables_characterization (d : JobShopData) :
    (∀ j i : Nat,
      VarDef.integer (Var.x j i) 0 (d.max_makespan : Int)
          ∈ define_variables d
        ↔ j ∈ d.jobs ∧ i ∈ d.resources) ∧
    (∀ j k i : Nat,
      VarDef.binary (Var.y j k i) ∈ define_variables d
        ↔ j ∈ d.jobs ∧ k ∈ d.jobs ∧ i ∈ d.resources) ∧
    (define_variables d).filter isMakespanVarDef =
      [VarDef.integer Var.makespan 0 (d.max_makespan : Int)] := by
  refine ⟨?_, ?_, ?_⟩
  · intro j i
    simp only [define_variables, List.mem_cons, List.mem_append,
      List.mem_flatMap, List.mem_map]
    constructor
    · rintro (heq | ⟨j', hj', i', hi', heq⟩ |
        ⟨j', hj', k', hk', i', hi', heq⟩)
      · exact absurd heq (by simp)
      · obtain ⟨rfl, rfl⟩ : j' = j ∧ i' = i := by
          injection heq with h1 h2 h3
          injection h1 with ha hb
          exact ⟨ha, hb⟩
        exact ⟨hj', hi'⟩
      · exact absurd heq (by simp)
    · rintro ⟨hj, hi⟩
      exact Or.inr (Or.inl ⟨j, hj, i, hi, rfl⟩)
  · intro j k i
    simp only [define_variables, List.mem_cons, List.mem_append,
      List.mem_flatMap, List.mem_map]
    constructor
    · rintro (heq | ⟨j', hj', i', hi', heq⟩ |
        ⟨j', hj', k', hk', i', hi', heq⟩)
      · exact absurd heq (by simp)
      · exact absurd heq (by simp)
      · obtain ⟨rfl, rfl, rfl⟩ : j' = j ∧ k' = k ∧ i' = i := by
          injection heq with h1
          injection h1 with ha hb hc
          exact ⟨ha, hb, hc⟩
        exact ⟨hj', hk', hi'⟩
    · rintro ⟨hj, hk, hi⟩
      exact Or.inr (Or.inr ⟨j, hj, k, hk, i, hi, rfl⟩)
  · show (VarDef.integer Var.makespan 0 (d.max_makespan : Int) ::
      (_ ++ _)).filter isMakespanVarDef = _
    rw [List.filter_cons]
    simp only [show isMakespanVarDef
      (VarDef.integer Var.makespan 0 (d.max_makespan : Int)) = true from rfl,
      if_true, List.filter_append]
    rw [filter_flatMap_nil _ _ d.jobs fun j _ => List.filter_eq_nil_iff.mpr ?_,
      filter_flatMap_nil _ _ d.jobs fun j _ => filter_flatMap_nil _ _ d.jobs
        fun k _ => List.filter_eq_nil_iff.mpr ?_]
    · rfl
    · intro v hv
      rcases List.mem_map.mp hv with ⟨i, _, rfl⟩
      simp [isMakespanVarDef]
    · intro v hv
      rcases List.mem_map.mp hv with ⟨i, _, rfl⟩
      simp [isMakespanVarDef]

/-- Witness instance for C5's amended statement: at the sparse instance
the model declares exactly one makespan variable. -/
theorem define_variables_characterization_witness :
    (define_variables sparseData).filter isMakespanVarDef =
      [VarDef.integer Var.makespan 0 (sparseData.max_makespan : Int)] :=
  (define_variables_characterization sparseData).2.2

/-- C6: requesting the bilinear (quadratic) exclusivity policy together
with the local MIP solver makes the run entry point fail with the
invalid-configuration error before any model is built: the result is the
`ValueError` and no `CQM` value is produced, so no solver can be
invoked. -/
theorem run_rejects_quadratic_with_mip (d : JobShopData) :
    run_shop_scheduler d true true =
      Except.error "Cannot use quadratic constraints with MIP solver" := rfl

/-- Counterexample to C7 as stated: at `zeroDurData` jobs 0 and 1 share
resource 0 and job 0's task there has zero duration, yet the disjunctive
policy still emits both exclusivity constraints for the pair. -/
theorem zero_duration_disjunctive_counterexample :
    (add_disjunctive_constraints zeroDurData).filter (isDisjLabel 0 1 0) =
      [disjunction1Constraint zeroDurData (zeroDurData.max_makespan : Int) 0 1 0,
       disjunction2Constraint zeroDurData (zeroDurData.max_makespan : Int) 0 1 0] ∧
    (zeroDurData.get_resource_job_tasks 0 0).duration = 0 := by decide

/-- C7 amended: only the bilinear policy excludes pairs in which a task
has zero duration; the disjunctive policy emits its two exclusivity
constraints for every pair regardless of durations. -/
theorem zero_duration_policy_behavior (d : JobShopData)
    (hjn : d.jobs.Nodup) (hrn : d.resources.Nodup) (j k i : Nat)
    (hj : j ∈ d.jobs) (hk : k ∈ d.jobs) (hjk : j < k) (hi : i ∈ d.resources)
    (hzero : (d.get_resource_job_tasks j i).duration = 0 ∨
             (d.get_resource_job_tasks k i).duration = 0) :
    (add_quadratic_overlap_constraint d).filter (isOneJobLabel j k i) = [] ∧
    (add_disjunctive_constraints d).filter (isDisjLabel j k i) =
      [disjunction1Constraint d (d.max_makespan : Int) j k i,
       disjunction2Constraint d (d.max_makespan : Int) j k i] := by
  refine ⟨(quad_filter_pair d hjn hrn j k i hj hk hjk hi).trans
    (if_neg ?_), disj_filter_pair d hjn hrn j k i hj hk hjk hi⟩
  rintro ⟨h1, h2⟩
  rcases hzero with h | h <;> omega

/-- Witness for C7's amended statement at the zero-duration instance:
the bilinear policy skips the pair there. -/
theorem zero_duration_policy_behavior_witness :
    (add_quadratic_overlap_constraint zeroDurData).filter (isOneJobLabel 0 1 0)
      = [] :=
  (zero_duration_policy_behavior zeroDurData (by decide) (by decide) 0 1 0
    (by decide) (by decide) (by decide) (by decide) (by decide)).1

/-- Unfolding equation for `call_cqm_solver` with its local bindings
expanded. -/
theorem call_cqm_solver_eq (d : JobShopData) (st : SolveState)
    (raw : List SampleRecord) :
    call_cqm_solver d st raw =
      if 0 < (raw.filter fun s => s.is_feasible).length then
        match ((raw.filter fun s => s.is_feasible).take
            (min 10 (raw.filter fun s => s.is_feasible).length)).head? with
        | some first => some (false, record_best_sample d st first)
        | none => none
      else
        match (raw.take 10).head? with
        | some first => some (true, record_best_sample d st first)
        | none => none := rfl

/-- The head of a list, when it exists, is a member. -/
theorem head?_mem_of_eq_some {α : Type} (l : List α) (t : α)
    (h : l.head? = some t) : t ∈ l := by
  cases l with
  | nil => exact absurd h (by simp)
  | cons a l =>
    simp only [List.head?_cons, Option.some.injEq] at h
    rw [← h]
    exact List.mem_cons_self a l

/-- C8: when the hybrid CQM solver returns at least one feasible sample,
the best sample is chosen from the feasible subset only and no warning is
emitted; when no sample is feasible, the solve step emits the warning
signal and proceeds with the best available (infeasible) sample, still
producing a fully populated solution state rather than aborting.  An
empty sample set is the only aborting case. -/
theorem cqm_solver_selection (d : JobShopData) (st : SolveState)
    (raw : List SampleRecord) (s : SampleRecord) :
    ((raw.filter fun t => t.is_feasible).head? = some s →
      call_cqm_solver d st raw = some (false, record_best_sample d st s) ∧
      s.is_feasible = true) ∧
    ((raw.filter fun t => t.is_feasible) = [] → raw.head? = some s →
      call_cqm_solver d st raw = some (true, record_best_sample d st s)) ∧
    (raw = [] → call_cqm_solver d st raw = none) := by
  refine ⟨?_, ?_, ?_⟩
  · intro hhead
    have hne : (raw.filter fun t => t.is_feasible) ≠ [] := by
      intro hnil
      rw [hnil] at hhead
      exact absurd hhead (by simp)
    have hlen : 0 < (raw.filter fun t => t.is_feasible).length :=
      List.length_pos.mpr hne
    constructor
    · rw [call_cqm_solver_eq, if_pos hlen, List.head?_take,
        if_neg (by omega), hhead]
    · exact (List.mem_filter.mp (head?_mem_of_eq_some _ s hhead)).2
  · intro hfe hhead
    rw [call_cqm_solver_eq, hfe]
    rw [if_neg (by simp), List.head?_take, if_neg (by omega), hhead]
  · intro hraw
    subst hraw
    rfl

/-- A concrete sample: makespan 7, all start times 0. -/
def sampleA : Var → Int := fun v =>
  match v with
  | Var.makespan => 7
  | _ => 0

/-- A concrete ranked sample set whose best sample is infeasible and whose
second sample is feasible. -/
def rawW : List SampleRecord :=
  [{ sample := sampleA, is_feasible := false },
   { sample := sampleA, is_feasible := true }]

/-- Witness for C8: on `rawW` the solver selects the feasible sample and
does not warn. -/
theorem cqm_solver_selection_witness :
    call_cqm_solver exampleData initState rawW =
      some (false, record_best_sample exampleData initState
        { sample := sampleA, is_feasible := true }) ∧
    ({ sample := sampleA, is_feasible := true } : SampleRecord).is_feasible
      = true :=
  (cqm_solver_selection exampleData initState rawW
    { sample := sampleA, is_feasible := true }).1 rfl

/-- The winning MIP sample used in the completion-time counterexample:
the makespan variable is assigned 7. -/
def mipBestSol : List (Var × Int) := [(Var.x 0 0, 2), (Var.makespan, 7)]

/-- Counterexample to C9 as stated: after a local MIP solve whose winning
assignment gives the makespan variable the value 7, the reported
completion time is still 0, because `call_mip_solver` never sets it. -/
theorem completion_time_claim_counterexample :
    (call_mip_solver exampleData initState mipBestSol).completion_time = 0 ∧
    (Var.makespan, (7 : Int)) ∈ mipBestSol ∧
    (0 : Int) ≠ 7 := by decide

/-- Auxiliary step for C9: whichever branch of the CQM solve selected the
sample, the recorded completion time is the recorded sample's makespan
value. -/
theorem completion_time_of_match (d : JobShopData) (st : SolveState)
    {b : Bool} {X : Option SampleRecord} {w : Bool} {st' : SolveState}
    (h : (match X with
          | some first => some (b, record_best_sample d st first)
          | none => none) = some (w, st')) :
    st'.completion_time = st'.best_sample Var.makespan := by
  cases X with
  | none => cases h
  | some first =>
    injection h with h2
    injection h2 with hw hst
    subst hst
    rfl

/-- C9 amended: on the hybrid CQM path the reported completion time equals
the makespan variable's value in the winning sample; the local MIP path
does not set the completion time at all, leaving it at its prior value
(0 right after initialization), so the claim holds only for the CQM
backend. -/
theorem completion_time_behavior (d : JobShopData) (st : SolveState)
    (raw : List SampleRecord) (w : Bool) (st' : SolveState)
    (sol : List (Var × Int)) :
    (call_cqm_solver d st raw = some (w, st') →
      st'.completion_time = st'.best_sample Var.makespan) ∧
    (call_mip_solver d st sol).completion_time = st.completion_time := by
  constructor
  · intro h
    rw [call_cqm_solver_eq] at h
    split at h
    · exact completion_time_of_match d st h
    · exact completion_time_of_match d st h
  · rfl

/-- Witness for C9's amended statement: the CQM path at `rawW` reports the
selected sample's makespan value as completion time. -/
theorem completion_time_behavior_witness :
    (record_best_sample exampleData initState
        { sample := sampleA, is_feasible := true }).completion_time =
      (record_best_sample exampleData initState
        { sample := sampleA, is_feasible := true }).best_sample
        Var.makespan :=
  (completion_time_behavior exampleData initState rawW false
    (record_best_sample exampleData initState
      { sample := sampleA, is_feasible := true }) mipBestSol).1 rfl

/-- Every constraint of the precedence family is a `precedenceConstraint`
of some job and task pair. -/
theorem mem_prec_cases (d : JobShopData) (c : Constraint)
    (hc : c ∈ add_precedence_constraints d) :
    ∃ job pc, c = precedenceConstraint job pc := by
  unfold add_precedence_constraints at hc
  rcases List.mem_flatMap.mp hc with ⟨job, _, hc2⟩
  rcases List.mem_map.mp hc2 with ⟨pc, _, rfl⟩
  exact ⟨job, pc, rfl⟩

/-- Every constraint of the bilinear family is the `quadraticConstraint`
of some pair with `j < k`. -/
theorem mem_quad_cases (d : JobShopData) (c : Constraint)
    (hc : c ∈ add_quadratic_overlap_constraint d) :
    ∃ j k i, j < k ∧ c = quadraticConstraint d j k i := by
  unfold add_quadratic_overlap_constraint at hc
  rcases List.mem_flatMap.mp hc with ⟨j, _, hc2⟩
  rcases List.mem_flatMap.mp hc2 with ⟨k, hk, hc3⟩
  rcases List.mem_flatMap.mp hc3 with ⟨i, _, hc4⟩
  have hjk : j < k := by simpa using (List.mem_filter.mp hk).2
  refine ⟨j, k, i, hjk, ?_⟩
  revert hc4
  split
  · intro hc4
    simpa using hc4
  · intro hc4
    cases hc4

/-- Every constraint of the disjunctive family is one of the two big-M
constraints of some pair with `j < k`. -/
theorem mem_disj_cases (d : JobShopData) (c : Constraint)
    (hc : c ∈ add_disjunctive_constraints d) :
    ∃ j k i, j < k ∧
      (c = disjunction1Constraint d (d.max_makespan : Int) j k i ∨
       c = disjunction2Constraint d (d.max_makespan : Int) j k i) := by
  unfold add_disjunctive_constraints at hc
  rcases List.mem_flatMap.mp hc with ⟨j, _, hc2⟩
  rcases List.mem_flatMap.mp hc2 with ⟨k, hk, hc3⟩
  rcases List.mem_flatMap.mp hc3 with ⟨i, _, hc4⟩
  have hjk : j < k := by simpa using (List.mem_filter.mp hk).2
  refine ⟨j, k, i, hjk, ?_⟩
  simpa using hc4

/-- Every constraint of the makespan family is the `makespanConstraint`
of some job and task. -/
theorem mem_makespan_cases (d : JobShopData) (c : Constraint)
    (hc : c ∈ add_makespan_constraint d) :
    ∃ job t, c = makespanConstraint job t := by
  unfold add_makespan_constraint at hc
  rcases List.mem_flatMap.mp hc with ⟨job, _, hc2⟩
  revert hc2
  cases hgl : (d.job_tasks job).getLast? with
  | none => intro hc2; cases hc2
  | some t =>
    intro hc2
    refine ⟨job, t, ?_⟩
    simpa using hc2

/-- C10: every constraint emitted by either exclusivity policy references
only the indicator `y[(j,k,i)]` with `j < k`; the reverse indicators
`y[(k,j,i)]` with `k > j` and the diagonal indicators `y[(j,j,i)]` are
created as model variables but appear in no constraint and not in the
objective, so a feasible assignment remains feasible under any values of
those variables. -/
theorem y_indicator_usage (d : JobShopData) (policy : Bool) :
    (∀ c ∈ (build_model d policy).constraints, ∀ v ∈ c.lhs.vars,
      ∀ j k i : Nat, v = Var.y j k i → j < k) ∧
    (build_model d policy).objective.vars = [Var.makespan] ∧
    (∀ j ∈ d.jobs, ∀ i ∈ d.resources,
      VarDef.binary (Var.y j j i) ∈ (build_model d policy).varList) ∧
    (∀ σ σ' : Var → Int,
      (∀ v : Var, (∀ j k i : Nat, v = Var.y j k i → j < k) → σ' v = σ v) →
      ∀ c ∈ (build_model d policy).constraints, c.sat σ → c.sat σ') := by
  have part1 : ∀ c ∈ (build_model d policy).constraints, ∀ v ∈ c.lhs.vars,
      ∀ j' k' i' : Nat, v = Var.y j' k' i' → j' < k' := by
    intro c hc v hv j' k' i' hveq
    subst hveq
    rcases List.mem_append.mp hc with hcl | hcm
    rcases List.mem_append.mp hcl with hcp | hcx
    · rcases mem_prec_cases d c hcp with ⟨job, pc, rfl⟩
      have hv2 : Var.y j' k' i' ∈
          [Var.x job pc.2.resource, Var.x job pc.1.resource] := hv
      simp at hv2
    · cases policy with
        | true =>
          have hcq : c ∈ add_quadratic_overlap_constraint d := by
            simpa using hcx
          rcases mem_quad_cases d c hcq with ⟨j, k, i, hjk, rfl⟩
          have hv2 : Var.y j' k' i' ∈ [Var.x j i, Var.x k i, Var.y j k i,
              Var.y j k i, Var.x k i, Var.x j i] := hv
          simp only [List.mem_cons, List.not_mem_nil, or_false] at hv2
          rcases hv2 with h | h | h | h | h | h <;>
            first
            | exact absurd h (by intro hcon; exact Var.noConfusion hcon)
            | (injection h with h1 h2 h3; omega)
        | false =>
          have hcd : c ∈ add_disjunctive_constraints d := by
            simpa using hcx
          rcases mem_disj_cases d c hcd with ⟨j, k, i, hjk, rfl | rfl⟩
          · have hv2 : Var.y j' k' i' ∈
                [Var.x j i, Var.x k i, Var.y j k i] := hv
            simp only [List.mem_cons, List.not_mem_nil, or_false] at hv2
            rcases hv2 with h | h | h <;>
              first
              | exact absurd h (by intro hcon; exact Var.noConfusion hcon)
              | (injection h with h1 h2 h3; omega)
          · have hv2 : Var.y j' k' i' ∈
                [Var.x k i, Var.x j i, Var.y j k i] := hv
            simp only [List.mem_cons, List.not_mem_nil, or_false] at hv2
            rcases hv2 with h | h | h <;>
              first
              | exact absurd h (by intro hcon; exact Var.noConfusion hcon)
              | (injection h with h1 h2 h3; omega)
    · rcases mem_makespan_cases d c hcm with ⟨job, t, rfl⟩
      have hv2 : Var.y j' k' i' ∈ [Var.makespan, Var.x job t.resource] := hv
      simp at hv2
  refine ⟨part1, rfl, ?_, ?_⟩
  · intro j hj i hi
    show VarDef.binary (Var.y j j i) ∈ define_variables d
    simp only [define_variables, List.mem_cons, List.mem_append,
      List.mem_flatMap, List.mem_map]
    exact Or.inr (Or.inr ⟨j, hj, j, hj, i, hi, rfl⟩)
  · intro σ σ' hσ c hc hsat
    have heq : c.lhs.eval σ' = c.lhs.eval σ :=
      eval_congr_of_vars σ σ' c.lhs fun v hv =>
        hσ v fun j k i hveq => part1 c hc v hv j k i hveq
    show c.lhs.eval σ' ≥ c.rhs
    rw [heq]
    exact hsat

/-- Witness for C10 at the spec's concrete instance: the bilinear
constraint of pair (0, 1) is in the model, contains `y 0 1 0`, and the
theorem yields `0 < 1` for it; the diagonal indicator `y 0 0 0` is among
the declared variables. -/
theorem y_indicator_usage_witness :
    0 < 1 ∧
    VarDef.binary (Var.y 0 0 0) ∈ (build_model exampleData true).varList :=
  ⟨(y_indicator_usage exampleData true).1
      (quadraticConstraint exampleData 0 1 0) (by decide)
      (Var.y 0 1 0) (by decide) 0 1 0 rfl,
   (y_indicator_usage exampleData true).2.2.1 0 (by decide) 0 (by decide)⟩

end JSS
